import Mathlib

/-!
Verification development for the AlphaETF Performance & Return
Normalization Engine.

The definitions below are a shallow embedding of the engine's source:

* `processChartData` (with helpers `sortByDate`, `lerp`, `subPoint`,
  `interpPoints`, `finalPoint`)  —  `src/utils/metrics.ts`, lines 10–100
  (the Series Interpolator);
* `getCategoryEstimates` / `categoryProfile`  —  `src/utils/metrics.ts`,
  lines 126–149 (the Synthetic Estimator);
* `getEtfPerformance`, `cacheLookup`, `parseSnapshot`  —
  `src/utils/metrics.ts`, lines 154–237 (the Performance Fetcher and the
  module-level Return Cache);
* `getAdjustedReturn`  —  `src/components/PerformanceTable.tsx`,
  lines 27–47 (the Return Adjuster).

Modelling conventions:

* JavaScript numbers are modelled as `ℚ`.  `parseFloat(x.toFixed(2))` is
  modelled by `round2` (round to two decimals; the tie-breaking rule of
  `toFixed` is never exercised by any statement below).
* A date string is modelled by its timestamp `new Date(s).getTime() : ℚ`;
  the final display formatting (`toLocaleDateString`) is not modelled, so a
  `ChartPoint.date` holds the timestamp that the source formats.
* A thrown exception is modelled by `Option.none` in the result of
  `processChartData`: the one reachable throw site of the interpolator is
  the read `data2[0].close` when `data2` is present but empty.
* The external request of the fetcher is modelled by an `ApiOutcome`
  oracle (rejection, 12-second-timeout, or a response together with the
  outcomes of the two `JSON.parse` attempts), and `Math.random()` draws of
  the estimator by a `noise : Fin 5 → ℚ` oracle.
* The module-level mutable `CACHE` object is modelled by explicit state
  passing: `getEtfPerformance` takes and returns the cache, and records in
  `FetchResult.requested` whether an outbound request was issued.
* `data1.sort(...)` / `data2.sort(...)` mutate the caller's arrays in
  place; the pure embedding exposes this through `postSeriesA` /
  `postSeriesB`, the value of the caller's arrays after the call.
-/

/-- Rounds a rational to two decimal places: models
`parseFloat(x.toFixed(2))`.  (`toFixed` rounds to the nearest hundredth;
no statement below depends on the tie-breaking rule.) -/
def round2 (q : ℚ) : ℚ := ((q * 100 + 1 / 2).floor : ℚ) / 100

/-- `DistributionPolicy` from `src/types.ts`. -/
inductive DistributionPolicy where
  | Accumulating
  | Distributing
deriving DecidableEq

/-- The fields of `ETF` (`src/types.ts`) that the engine reads. -/
structure ETF where
  ticker : String
  category : String
  distribution : DistributionPolicy
  dividendYield : ℚ
deriving DecidableEq

/-- One raw observation `{ date: string; close: number }` of a weekly price
series; `date` is the timestamp `new Date(date).getTime()`. -/
structure PricePoint where
  date : ℚ
  close : ℚ
deriving DecidableEq

instance : Inhabited PricePoint := ⟨⟨0, 0⟩⟩

/-- `ChartPoint` from `src/types.ts`; `date` is the timestamp that the
source formats for display. -/
structure ChartPoint where
  date : ℚ
  etf1Value : ℚ
  etf2Value : Option ℚ
deriving DecidableEq

/-- `EtfPerformance` from `src/types.ts`.  The five period fields are
`Option ℚ` because on the success path the source copies
`data['1M']` … `data['5Y']` unchecked (only `1Y` is validated), so any of
them may be `undefined` at runtime.  `r1M` stands for the key `"1M"`, and
so on. -/
structure EtfPerformance where
  r1M : Option ℚ
  r3M : Option ℚ
  r1Y : Option ℚ
  r3Y : Option ℚ
  r5Y : Option ℚ
  source : Option String
  isEstimated : Bool
deriving DecidableEq

/-- JavaScript `haystack.includes(pat)` (substring containment), used by
`getCategoryEstimates` on category names. -/
def strIncludes (s pat : String) : Bool :=
  (List.range (s.data.length + 1)).any (fun k => pat.data.isPrefixOf (s.data.drop k))

/-- The profile-selection block of `getCategoryEstimates`
(`src/utils/metrics.ts` lines 127–136): a default `(baseAnnual, vol)` pair
followed by seven sequential overwriting `if` statements. -/
def categoryProfile (category : String) : ℚ × ℚ :=
  let p : ℚ × ℚ := (8 / 100, 1)
  let p := if strIncludes category "Tech" then ((16 : ℚ) / 100, (15 : ℚ) / 10) else p
  let p := if strIncludes category "USA" then ((11 : ℚ) / 100, (12 : ℚ) / 10) else p
  let p := if strIncludes category "Bonds" then ((4 : ℚ) / 100, (4 : ℚ) / 10) else p
  let p := if strIncludes category "Emerging" then ((6 : ℚ) / 100, (13 : ℚ) / 10) else p
  let p := if strIncludes category "Europe" then ((7 : ℚ) / 100, (1 : ℚ)) else p
  let p := if strIncludes category "Multi" then ((65 : ℚ) / 1000, (7 : ℚ) / 10) else p
  let p := if strIncludes category "Dividend" then ((75 : ℚ) / 1000, (8 : ℚ) / 10) else p
  p

/-- The Synthetic Estimator `getCategoryEstimates`
(`src/utils/metrics.ts` lines 126–149).  `noise i` models the `i`-th call
of `() => (Math.random() - 0.5) * 2`. -/
def getCategoryEstimates (category : String) (noise : Fin 5 → ℚ) : EtfPerformance :=
  let baseAnnual := (categoryProfile category).1
  let vol := (categoryProfile category).2
  { r1M := some (round2 ((baseAnnual / 12) * 100 + noise 0 * vol))
    r3M := some (round2 ((baseAnnual / 4) * 100 + noise 1 * vol * 2))
    r1Y := some (round2 (baseAnnual * 100 + noise 2 * vol * 5))
    r3Y := some (round2 (((1 + baseAnnual) ^ 3 - 1) * 100 + noise 3 * vol * 8))
    r5Y := some (round2 (((1 + baseAnnual) ^ 5 - 1) * 100 + noise 4 * vol * 10))
    source := none
    isEstimated := true }

/-- Outcome of `JSON.parse` in the fetcher: it throws, parses to a falsy
value (`null`), or parses to an object with the five optional numeric
period keys (`RawPerf`).  For the embedded-extraction attempt, `threw`
also covers the case that the regex finds no `\x7b...\x7d` block (then
`data` simply stays `null`): every such case feeds the same
invalid-data check. -/
structure RawPerf where
  m1 : Option ℚ
  m3 : Option ℚ
  y1 : Option ℚ
  y3 : Option ℚ
  y5 : Option ℚ
deriving DecidableEq

inductive ParseOutcome where
  | threw
  | parsedNull
  | parsedObj (d : RawPerf)
deriving DecidableEq

/-- A settled response of the external source: the outcome of the direct
`JSON.parse(response.text)`, the outcome of the fallback parse of the
extracted block, and the optional first grounding-citation URI. -/
structure ApiResponse where
  direct : ParseOutcome
  embedded : ParseOutcome
  sourceUri : Option String
deriving DecidableEq

/-- How the race of the outbound request against the 12-second timer
settles (`src/utils/metrics.ts` lines 193–204). -/
inductive ApiOutcome where
  | reject
  | timeout
  | ok (r : ApiResponse)
deriving DecidableEq

/-- The parsing stage, lines 207–214: direct parse first; only if it threw,
the embedded-object extraction. -/
def extractedRaw (r : ApiResponse) : Option RawPerf :=
  match r.direct with
  | ParseOutcome.parsedObj d => some d
  | ParseOutcome.parsedNull => none
  | ParseOutcome.threw =>
    match r.embedded with
    | ParseOutcome.parsedObj d => some d
    | _ => none

/-- Lines 204–226 of `src/utils/metrics.ts`: the whole `try` block after
the race settles.  `none` means some step threw (network rejection,
timeout, unparseable text, or the `Invalid Data Structure` check on a
missing/non-numeric `1Y`), which the `catch` turns into the synthetic
fallback. -/
def parseSnapshot : ApiOutcome → Option EtfPerformance
  | ApiOutcome.reject => none
  | ApiOutcome.timeout => none
  | ApiOutcome.ok r =>
    match extractedRaw r with
    | none => none
    | some d =>
      match d.y1 with
      | none => none
      | some y =>
        some { r1M := d.m1, r3M := d.m3, r1Y := some y, r3Y := d.y3, r5Y := d.y5,
               source := r.sourceUri, isEstimated := false }

/-- The module-level `CACHE : Record<string, EtfPerformance>`, modelled as
an association list (new entries are added at the front; the source only
ever adds a key that is absent). -/
abbrev Cache := List (String × EtfPerformance)

/-- `CACHE[k]` lookup. -/
def cacheLookup (c : Cache) (k : String) : Option EtfPerformance :=
  match c with
  | [] => none
  | (k1, v) :: rest => if k1 = k then some v else cacheLookup rest k

/-- Line 161: the cache key `` `${ticker}-${currency}-perf-v2` ``. -/
def cacheKey (ticker currency : String) : String :=
  ticker ++ "-" ++ currency ++ "-perf-v2"

/-- What one call of `getEtfPerformance` produces: the resolved snapshot,
the cache afterwards, and whether an outbound request was issued. -/
structure FetchResult where
  perf : EtfPerformance
  cache : Cache
  requested : Bool
deriving DecidableEq

/-- The Performance Fetcher `getEtfPerformance`
(`src/utils/metrics.ts` lines 154–237) as a state-passing step function.
A cache hit returns immediately without an outbound request; otherwise the
request is issued and its settled outcome is `outcome`; on any failure the
synthetic fallback for `category` (with random draws `noise`) is produced;
whichever snapshot results is stored under the cache key. -/
def getEtfPerformance (c : Cache) (ticker currency category : String)
    (outcome : ApiOutcome) (noise : Fin 5 → ℚ) : FetchResult :=
  match cacheLookup c (cacheKey ticker currency) with
  | some p => ⟨p, c, false⟩
  | none =>
    match parseSnapshot outcome with
    | some result => ⟨result, (cacheKey ticker currency, result) :: c, true⟩
    | none =>
      ⟨getCategoryEstimates category noise,
       (cacheKey ticker currency, getCategoryEstimates category noise) :: c, true⟩

/-- One observed call of the fetcher: its arguments plus the oracle values
for the outbound request and the estimator's randomness. -/
structure FetchEvent where
  ticker : String
  currency : String
  category : String
  outcome : ApiOutcome
  noise : Fin 5 → ℚ

/-- The cache after a sequence of fetch calls. -/
def runFetches (c : Cache) : List FetchEvent → Cache
  | [] => c
  | e :: evs =>
    runFetches (getEtfPerformance c e.ticker e.currency e.category e.outcome e.noise).cache evs

/-- The Return Adjuster `getAdjustedReturn`
(`src/components/PerformanceTable.tsx` lines 27–47).  The React state
`includeDividends` captured by the closure is passed explicitly.  The
`switch` is an if-chain whose untaken default leaves `drag = 0`. -/
def getAdjustedReturn (includeDividends : Bool) (baseReturn : ℚ) (period : String)
    (etf : ETF) : ℚ :=
  if includeDividends then baseReturn
  else if etf.distribution = DistributionPolicy.Accumulating then baseReturn
  else
    let annualYield := etf.dividendYield * 100
    let drag : ℚ :=
      if period = "1M" then annualYield / 12
      else if period = "3M" then annualYield / 4
      else if period = "1Y" then annualYield
      else if period = "3Y" then annualYield * 3
      else if period = "5Y" then annualYield * 5
      else 0
    baseReturn - drag

/-- `lerp` from `src/utils/metrics.ts` lines 10–12 (`end` is a reserved
word in Lean, hence `stop`). -/
def lerp (start stop t : ℚ) : ℚ := start + (stop - start) * t

/-- Sorting by date, `src/utils/metrics.ts` lines 27–28: the comparator
`(a, b) => new Date(a.date).getTime() - new Date(b.date).getTime()`
orders by ascending timestamp. -/
def sortByDate (l : List PricePoint) : List PricePoint :=
  List.insertionSort (fun a b => a.date ≤ b.date) l

instance : IsTotal PricePoint (fun a b => a.date ≤ b.date) :=
  ⟨fun a b => le_total a.date b.date⟩

instance : IsTrans PricePoint (fun a b => a.date ≤ b.date) :=
  ⟨fun _ _ _ h h2 => le_trans h h2⟩

/-- The body of the nested interpolation loops
(`src/utils/metrics.ts` lines 36–81) for segment `i`, sub-step `j`
(`0 ≤ j < 5`); `d1`, `d2` are the sorted series.  The start values
(lines 30–31) are recomputed here from the sorted series — the source
computes them once before the loop, with the same values.  The `getD`
defaults are never reached for the index ranges the loop uses. -/
def subPoint (etf1 : ETF) (etf2 : Option ETF) (d1 : List PricePoint)
    (d2 : Option (List PricePoint)) (includeDividends : Bool) (i j : ℕ) : ChartPoint :=
  let p1 := d1.getD i default
  let p2 := d1.getD (i + 1) default
  let startVal1 := (d1.getD 0 default).close
  let startVal2 : ℚ :=
    match d2 with
    | some l => (l.getD 0 default).close
    | none => 1
  let t : ℚ := (j : ℚ) / 5
  let totalProgress : ℚ := ((i : ℚ) * 5 + (j : ℚ)) / ((d1.length : ℚ) * 5)
  let currentPrice1 :=
    if includeDividends = false ∧ etf1.distribution = DistributionPolicy.Distributing then
      lerp p1.close p2.close t * (1 - etf1.dividendYield * totalProgress)
    else lerp p1.close p2.close t
  let currentPrice2 : ℚ :=
    match d2, etf2 with
    | some l, oe =>
      let q1 := (l[i]?).getD (l.getLast?.getD default)
      let q2 := (l[i + 1]?).getD (l.getLast?.getD default)
      let c := lerp q1.close q2.close t
      match oe with
      | some e2 =>
        if includeDividends = false ∧ e2.distribution = DistributionPolicy.Distributing then
          c * (1 - e2.dividendYield * totalProgress)
        else c
      | none => c
    | none, _ => 0
  let pct1 := ((currentPrice1 - startVal1) / startVal1) * 100
  let pct2 : Option ℚ :=
    match d2 with
    | some _ => some (((currentPrice2 - startVal2) / startVal2) * 100)
    | none => none
  { date := p1.date + (p2.date - p1.date) * t
    etf1Value := round2 pct1
    etf2Value := pct2.map round2 }

/-- The two nested loops of `processChartData`: `i` ranges over the
`d1.length - 1` segments, `j` over the `steps = 5` sub-steps. -/
def interpPoints (etf1 : ETF) (etf2 : Option ETF) (d1 : List PricePoint)
    (d2 : Option (List PricePoint)) (includeDividends : Bool) : List ChartPoint :=
  (List.range (d1.length - 1)).flatMap (fun i =>
    (List.range 5).map (fun j => subPoint etf1 etf2 d1 d2 includeDividends i j))

/-- The final exact point (`src/utils/metrics.ts` lines 84–97), built from
the literal last observation of each sorted series. -/
def finalPoint (d1 : List PricePoint) (d2 : Option (List PricePoint)) : ChartPoint :=
  let startVal1 := (d1.getD 0 default).close
  let startVal2 : ℚ :=
    match d2 with
    | some l => (l.getD 0 default).close
    | none => 1
  let last1 := d1.getLast?.getD default
  let last2 : Option PricePoint := d2.map (fun l => l.getLast?.getD default)
  let finalPct1 := ((last1.close - startVal1) / startVal1) * 100
  let finalPct2 : Option ℚ := last2.map (fun p => ((p.close - startVal2) / startVal2) * 100)
  { date := last1.date
    etf1Value := round2 finalPct1
    etf2Value := finalPct2.map round2 }

/-- The Series Interpolator `processChartData`
(`src/utils/metrics.ts` lines 14–100).  `none` models the uncaught
`TypeError` of line 31 (`data2[0].close` with `data2` present but empty;
an empty array is truthy in JavaScript, so the conditional takes the
`data2[0]` branch).  The source hits that throw after sorting, which a
pure return value cannot distinguish; `postSeriesA`/`postSeriesB` below
record the sorting effect on the caller's arrays. -/
def processChartData (etf1 : ETF) (data1 : List PricePoint) (etf2 : Option ETF)
    (data2 : Option (List PricePoint)) (includeDividends : Bool) :
    Option (List ChartPoint) :=
  if data1.length < 2 then some []
  else if data2 = some ([] : List PricePoint) then none
  else
    some (interpPoints etf1 etf2 (sortByDate data1) (data2.map sortByDate) includeDividends
      ++ [finalPoint (sortByDate data1) (data2.map sortByDate)])

/-- The caller's `data1` array after a `processChartData` call: with fewer
than two points the function returns before sorting; otherwise line 27 has
sorted the array in place. -/
def postSeriesA (data1 : List PricePoint) : List PricePoint :=
  if data1.length < 2 then data1 else sortByDate data1

/-- The caller's `data2` array after a `processChartData` call (line 28
sorts it in place when present), even on the throwing path, which is
reached only after the sorts. -/
def postSeriesB (data1 : List PricePoint) (data2 : Option (List PricePoint)) :
    Option (List PricePoint) :=
  if data1.length < 2 then data2 else data2.map sortByDate

/-! ### Helper lemmas about the cache -/

theorem cacheLookup_cons (k1 : String) (v : EtfPerformance) (c : Cache) (k : String) :
    cacheLookup ((k1, v) :: c) k = if k1 = k then some v else cacheLookup c k := rfl

/-- Inserting a key that is absent does not disturb any present binding. -/
theorem cacheLookup_insert_of_present (key : String) (v : EtfPerformance) (c : Cache)
    (k : String) (p : EtfPerformance) (hmiss : cacheLookup c key = none)
    (h : cacheLookup c k = some p) :
    cacheLookup ((key, v) :: c) k = some p := by
  rw [cacheLookup_cons]
  by_cases hk : key = k
  · subst hk
    rw [hmiss] at h
    exact absurd h (by simp)
  · simpa [hk] using h

/-- A cache hit: the fetcher returns the cached snapshot, leaves the cache
unchanged, and issues no outbound request. -/
theorem getEtfPerformance_hit (c : Cache) (t cur cat : String) (o : ApiOutcome)
    (ns : Fin 5 → ℚ) (p : EtfPerformance)
    (h : cacheLookup c (cacheKey t cur) = some p) :
    getEtfPerformance c t cur cat o ns = ⟨p, c, false⟩ := by
  unfold getEtfPerformance
  rw [h]

/-- One fetch step never changes a binding that is already present. -/
theorem getEtfPerformance_preserves (c : Cache) (t cur cat : String) (o : ApiOutcome)
    (ns : Fin 5 → ℚ) (k : String) (p : EtfPerformance)
    (h : cacheLookup c k = some p) :
    cacheLookup (getEtfPerformance c t cur cat o ns).cache k = some p := by
  unfold getEtfPerformance
  rcases hm : cacheLookup c (cacheKey t cur) with _ | q
  · rcases hp : parseSnapshot o with _ | r
    · exact cacheLookup_insert_of_present _ _ _ _ _ hm h
    · exact cacheLookup_insert_of_present _ _ _ _ _ hm h
  · exact h

/-- No fetch sequence changes a binding that is already present. -/
theorem runFetches_preserves (evs : List FetchEvent) (c : Cache) (k : String)
    (p : EtfPerformance) (h : cacheLookup c k = some p) :
    cacheLookup (runFetches c evs) k = some p := by
  induction evs generalizing c with
  | nil => exact h
  | cons e evs ih =>
    exact ih _ (getEtfPerformance_preserves _ _ _ _ _ _ _ _ h)

/-! ### C2 — cache immutability and hit semantics -/

/-- C2: once a (ticker, currency) key holds a snapshot `p` in the Return
Cache, `p` is still its value after any further sequence of fetch calls,
and a subsequent fetch for the same ticker and currency returns exactly
`p`, leaves the cache unchanged and issues no outbound request — `p` being
arbitrary, this covers synthetic fallback snapshots as well. -/
theorem c2_cache_immutable_and_hit (c : Cache) (t cur : String) (p : EtfPerformance)
    (evs : List FetchEvent) (cat : String) (o : ApiOutcome) (ns : Fin 5 → ℚ)
    (h : cacheLookup c (cacheKey t cur) = some p) :
    cacheLookup (runFetches c evs) (cacheKey t cur) = some p ∧
    getEtfPerformance (runFetches c evs) t cur cat o ns = ⟨p, runFetches c evs, false⟩ := by
  have hp := runFetches_preserves evs c _ p h
  exact ⟨hp, getEtfPerformance_hit _ _ _ _ _ _ _ hp⟩

/-- A stored synthetic snapshot (what a failed fetch of a Bonds-category
fund would have produced). -/
def perfSampleC2 : EtfPerformance := getCategoryEstimates "Bonds/Special" (fun _ => 1 / 4)

def cacheSampleC2 : Cache := [(cacheKey "VWRL" "EUR", perfSampleC2)]

def evsSampleC2 : List FetchEvent :=
  [⟨"SXR8", "EUR", "USA S&P500", ApiOutcome.timeout, fun _ => 0⟩,
   ⟨"VWRL", "EUR", "Global", ApiOutcome.reject, fun _ => 1⟩]

theorem c2_witness :
    cacheLookup cacheSampleC2 (cacheKey "VWRL" "EUR") = some perfSampleC2 ∧
    (cacheLookup (runFetches cacheSampleC2 evsSampleC2) (cacheKey "VWRL" "EUR") =
        some perfSampleC2 ∧
      getEtfPerformance (runFetches cacheSampleC2 evsSampleC2) "VWRL" "EUR" "Global"
          ApiOutcome.timeout (fun _ => 0) =
        ⟨perfSampleC2, runFetches cacheSampleC2 evsSampleC2, false⟩) :=
  ⟨rfl, c2_cache_immutable_and_hit _ _ _ _ _ _ _ _ rfl⟩

/-! ### C3 — any outbound failure yields the cached synthetic fallback -/

/-- C3: on a cache miss, whenever the outbound request rejects, times out,
its text parses neither directly nor via embedded-object extraction, or
the parsed object lacks a numeric `"1Y"` field, the fetcher resolves with
the Synthetic Estimator's output for the category: that snapshot has
`isEstimated = true` and no provenance reference, and it is stored in the
cache under the (ticker, currency) key. -/
theorem c3_fallback_on_failure (c : Cache) (t cur cat : String) (ns : Fin 5 → ℚ)
    (o : ApiOutcome)
    (hmiss : cacheLookup c (cacheKey t cur) = none)
    (hfail : o = ApiOutcome.reject ∨ o = ApiOutcome.timeout ∨
      (∃ r, o = ApiOutcome.ok r ∧ extractedRaw r = none) ∨
      (∃ r d, o = ApiOutcome.ok r ∧ extractedRaw r = some d ∧ d.y1 = none)) :
    getEtfPerformance c t cur cat o ns =
      ⟨getCategoryEstimates cat ns,
       (cacheKey t cur, getCategoryEstimates cat ns) :: c, true⟩ ∧
    (getCategoryEstimates cat ns).isEstimated = true ∧
    (getCategoryEstimates cat ns).source = none ∧
    cacheLookup ((cacheKey t cur, getCategoryEstimates cat ns) :: c) (cacheKey t cur) =
      some (getCategoryEstimates cat ns) := by
  have hps : parseSnapshot o = none := by
    rcases hfail with h | h | ⟨r, h, he⟩ | ⟨r, d, h, he, hy⟩ <;> subst h
    · rfl
    · rfl
    · simp [parseSnapshot, he]
    · simp [parseSnapshot, he, hy]
  refine ⟨?_, rfl, rfl, ?_⟩
  · unfold getEtfPerformance
    rw [hmiss, hps]
  · rw [cacheLookup_cons, if_pos rfl]

theorem c3_witness :
    cacheLookup [] (cacheKey "VWCE" "PLN") = none ∧
    (ApiOutcome.timeout = ApiOutcome.reject ∨ ApiOutcome.timeout = ApiOutcome.timeout ∨
      (∃ r, ApiOutcome.timeout = ApiOutcome.ok r ∧ extractedRaw r = none) ∨
      (∃ r d, ApiOutcome.timeout = ApiOutcome.ok r ∧ extractedRaw r = some d ∧
        d.y1 = none)) ∧
    (getEtfPerformance [] "VWCE" "PLN" "Global" ApiOutcome.timeout (fun _ => 1 / 2) =
      ⟨getCategoryEstimates "Global" (fun _ => 1 / 2),
       (cacheKey "VWCE" "PLN", getCategoryEstimates "Global" (fun _ => 1 / 2)) :: [], true⟩ ∧
    (getCategoryEstimates "Global" (fun _ => 1 / 2)).isEstimated = true ∧
    (getCategoryEstimates "Global" (fun _ => 1 / 2)).source = none ∧
    cacheLookup
        [(cacheKey "VWCE" "PLN", getCategoryEstimates "Global" (fun _ => 1 / 2))]
        (cacheKey "VWCE" "PLN") =
      some (getCategoryEstimates "Global" (fun _ => 1 / 2))) :=
  ⟨rfl, Or.inr (Or.inl rfl),
   c3_fallback_on_failure [] "VWCE" "PLN" "Global" (fun _ => 1 / 2) ApiOutcome.timeout rfl
     (Or.inr (Or.inl rfl))⟩

/-! ### C1 — the interpolator's throw on a present-but-empty series B -/

def etfSampleC1 : ETF := ⟨"VWCE", "Global", DistributionPolicy.Accumulating, 0⟩

/-- C1 (failing part, evaluated): with two points in series A and a
present-but-empty series B, `processChartData` throws (TypeError reading
`data2[0].close`, modelled by `none`) instead of resolving with a
best-effort sequence. -/
theorem c1_interpolate_throws :
    processChartData etfSampleC1 [⟨0, 100⟩, ⟨1, 110⟩] none (some ([] : List PricePoint))
      true = none := by decide

/-! ### C7 / C10 — the Return Adjuster's drag table -/

/-- The period-to-multiplier table exactly as the claim states it: the drag
subtracted from a distributing fund's return under price-only semantics is
the annual yield (as a percentage) times this factor. -/
def periodMultiplier (period : String) : ℚ :=
  if period = "1M" then 1 / 12
  else if period = "3M" then 1 / 4
  else if period = "1Y" then 1
  else if period = "3Y" then 3
  else if period = "5Y" then 5
  else 0

/-- C7: for every distributing fund under price-only semantics, the
adjusted return subtracts `dividendYield * 100` times exactly `1/12`,
`1/4`, `1`, `3`, `5` for the periods `1M`, `3M`, `1Y`, `3Y`, `5Y`;
in particular for `1Y` it is the raw return minus `dividendYield * 100`. -/
theorem c7_drag_table (x y : ℚ) (tick cat : String) (period : String)
    (hp : period ∈ (["1M", "3M", "1Y", "3Y", "5Y"] : List String)) :
    getAdjustedReturn false x period ⟨tick, cat, DistributionPolicy.Distributing, y⟩ =
      x - y * 100 * periodMultiplier period ∧
    getAdjustedReturn false x "1Y" ⟨tick, cat, DistributionPolicy.Distributing, y⟩ =
      x - y * 100 := by
  constructor
  · simp only [List.mem_cons, List.not_mem_nil, or_false] at hp
    rcases hp with rfl | rfl | rfl | rfl | rfl <;>
      simp [getAdjustedReturn, periodMultiplier] <;> ring
  · simp [getAdjustedReturn]

theorem c7_witness :
    ("3M" ∈ (["1M", "3M", "1Y", "3Y", "5Y"] : List String)) ∧
    (getAdjustedReturn false 10 "3M" ⟨"VWRL", "Global", DistributionPolicy.Distributing, 1 / 50⟩ =
        10 - 1 / 50 * 100 * periodMultiplier "3M" ∧
      getAdjustedReturn false 10 "1Y" ⟨"VWRL", "Global", DistributionPolicy.Distributing, 1 / 50⟩ =
        10 - 1 / 50 * 100) :=
  ⟨by simp, c7_drag_table 10 (1 / 50) "VWRL" "Global" "3M" (by simp)⟩

/-- C10: for a distributing fund under price-only semantics, a period
outside the five known keys falls through the `switch` with `drag` still
`0`, so the raw return is returned unchanged and no error is raised. -/
theorem c10_unknown_period (x y : ℚ) (tick cat : String) (period : String)
    (hp : period ∉ (["1M", "3M", "1Y", "3Y", "5Y"] : List String)) :
    getAdjustedReturn false x period ⟨tick, cat, DistributionPolicy.Distributing, y⟩ = x := by
  simp only [List.mem_cons, List.not_mem_nil, or_false, not_or] at hp
  obtain ⟨h1, h2, h3, h4, h5⟩ := hp
  simp [getAdjustedReturn, h1, h2, h3, h4, h5]

theorem c10_witness :
    ("10Y" ∉ (["1M", "3M", "1Y", "3Y", "5Y"] : List String)) ∧
    getAdjustedReturn false 7 "10Y" ⟨"VUSA", "USA S&P500", DistributionPolicy.Distributing, 7 / 500⟩ = 7 :=
  ⟨by simp, c10_unknown_period 7 (7 / 500) "VUSA" "USA S&P500" "10Y" (by simp)⟩

/-! ### C8 — last matching keyword rule wins -/

/-- The estimator's rule table in its fixed evaluation order, written as
the claim describes it: keyword, base annualized return, volatility
multiplier. -/
def estimateRules : List (String × ℚ × ℚ) :=
  [("Tech", 16 / 100, 15 / 10), ("USA", 11 / 100, 12 / 10), ("Bonds", 4 / 100, 4 / 10),
   ("Emerging", 6 / 100, 13 / 10), ("Europe", 7 / 100, 1), ("Multi", 65 / 1000, 7 / 10),
   ("Dividend", 75 / 1000, 8 / 10)]

/-- C8: the profile used by the Synthetic Estimator is that of the last
rule, in the order Tech, USA, Bonds, Emerging, Europe, Multi, Dividend,
whose keyword is contained in the category string; with no match the
default global profile (base `0.08`, volatility multiplier `1`) is used. -/
theorem c8_last_rule_wins (category : String) :
    categoryProfile category =
      ((estimateRules.filter (fun r => strIncludes category r.1)).getLast?.map
        (fun r => r.2)).getD (8 / 100, 1) := by
  unfold categoryProfile estimateRules
  cases hT : strIncludes category "Tech" <;>
    cases hU : strIncludes category "USA" <;>
      cases hB : strIncludes category "Bonds" <;>
        cases hE : strIncludes category "Emerging" <;>
          cases hEu : strIncludes category "Europe" <;>
            cases hM : strIncludes category "Multi" <;>
              cases hD : strIncludes category "Dividend" <;>
                simp [hT, hU, hB, hE, hEu, hM, hD, List.filter]

/-! ### Helper lemmas about the interpolation loops -/

theorem round2_def (q : ℚ) : round2 q = (⌊q * 100 + 1 / 2⌋ : ℚ) / 100 := rfl

theorem sortByDate_length (l : List PricePoint) : (sortByDate l).length = l.length := by
  simp [sortByDate, List.length_insertionSort]

/-- Flattening segments of five sub-steps enumerates sub-point indices
`k < n * 5`, with segment `k / 5` and sub-step `k % 5`. -/
theorem flatMap_fives {α : Type} (f : ℕ → ℕ → α) (n : ℕ) :
    (List.range n).flatMap (fun i => (List.range 5).map (f i)) =
      (List.range (n * 5)).map (fun k => f (k / 5) (k % 5)) := by
  induction n with
  | zero => simp
  | succ m ih =>
    have h5 : (m + 1) * 5 = m * 5 + 5 := by ring
    rw [List.range_succ, List.flatMap_append, ih, h5, List.range_add, List.map_append,
      List.map_map]
    congr 1
    simp only [List.flatMap_cons, List.flatMap_nil, List.append_nil]
    refine List.map_congr_left ?_
    intro j hj
    rw [List.mem_range] at hj
    have h1 : (m * 5 + j) / 5 = m := by omega
    have h2 : (m * 5 + j) % 5 = j := by omega
    simp [Function.comp, h1, h2]

theorem interpPoints_eq (etf1 : ETF) (etf2 : Option ETF) (d1 : List PricePoint)
    (d2 : Option (List PricePoint)) (inc : Bool) :
    interpPoints etf1 etf2 d1 d2 inc =
      (List.range ((d1.length - 1) * 5)).map
        (fun k => subPoint etf1 etf2 d1 d2 inc (k / 5) (k % 5)) :=
  flatMap_fives _ _

theorem interpPoints_length (etf1 : ETF) (etf2 : Option ETF) (d1 : List PricePoint)
    (d2 : Option (List PricePoint)) (inc : Bool) :
    (interpPoints etf1 etf2 d1 d2 inc).length = (d1.length - 1) * 5 := by
  rw [interpPoints_eq]
  simp

/-! ### C4 — interpolation point count -/

/-- C4 (theorem, amended): for a series A of `N ≥ 2` points and any series
B that is absent or nonempty, the interpolator returns exactly
`(N - 1) * 5 + 1` chart points; for a series A of fewer than two points it
returns the empty sequence for *any* series B, an empty one included,
because the length guard returns before series B is touched. -/
theorem c4_point_count (etf1 : ETF) (data1 : List PricePoint) (etf2 : Option ETF)
    (data2 : Option (List PricePoint)) (inc : Bool) :
    (2 ≤ data1.length → data2 ≠ some ([] : List PricePoint) →
      (processChartData etf1 data1 etf2 data2 inc).map List.length =
        some ((data1.length - 1) * 5 + 1)) ∧
    (data1.length < 2 → processChartData etf1 data1 etf2 data2 inc = some []) := by
  constructor
  · intro h2 hB
    unfold processChartData
    rw [if_neg (by omega), if_neg hB]
    simp [interpPoints_length, sortByDate_length]
  · intro h2
    unfold processChartData
    rw [if_pos h2]

def etfSampleC4 : ETF := ⟨"IWDA", "Global", DistributionPolicy.Accumulating, 0⟩

def dataSampleC4 : List PricePoint := [⟨0, 50⟩, ⟨7, 55⟩]

/-- C4 (counterexample): the claim quantifies over *any* series B, but for
a present-but-empty series B the source throws (reading
`data2[0].close`) instead of producing `(N - 1) * 5 + 1` points. -/
theorem c4_counterexample :
    (processChartData etfSampleC4 dataSampleC4 none (some ([] : List PricePoint)) true).map
        List.length ≠ some ((dataSampleC4.length - 1) * 5 + 1) ∧
    (processChartData etfSampleC4 dataSampleC4 none (some ([] : List PricePoint)) true).map
        List.length = none := by
  constructor
  · decide
  · decide

def dataW4 : List PricePoint := [⟨0, 10⟩, ⟨1, 11⟩, ⟨2, 12⟩]

def dataW4short : List PricePoint := [⟨0, 10⟩]

theorem c4_witness :
    (2 ≤ dataW4.length ∧ (none : Option (List PricePoint)) ≠ some ([] : List PricePoint) ∧
      (processChartData etfSampleC4 dataW4 none none false).map List.length =
        some ((dataW4.length - 1) * 5 + 1)) ∧
    (dataW4short.length < 2 ∧
      processChartData etfSampleC4 dataW4short none (some ([] : List PricePoint)) false =
        some []) :=
  ⟨⟨by simp [dataW4], by simp,
    (c4_point_count etfSampleC4 dataW4 none none false).1 (by simp [dataW4]) (by simp)⟩,
   ⟨by simp [dataW4short],
    (c4_point_count etfSampleC4 dataW4short none (some ([] : List PricePoint)) false).2
      (by simp [dataW4short])⟩⟩

/-! ### C5 — endpoint exactness -/

/-- C5: for a series A of at least two points (series B absent or
nonempty), the last chart point's value for series A is its literal last
observation's percentage return relative to the first observation's
price, rounded to two decimals — not an interpolated value. -/
theorem c5_endpoint_exact (etf1 : ETF) (data1 : List PricePoint) (etf2 : Option ETF)
    (data2 : Option (List PricePoint)) (inc : Bool)
    (h2 : 2 ≤ data1.length) (hB : data2 ≠ some ([] : List PricePoint)) :
    (processChartData etf1 data1 etf2 data2 inc).map
        (fun out => out.getLast?.map ChartPoint.etf1Value) =
      some (some (round2
        ((((sortByDate data1).getLast?.getD default).close -
            ((sortByDate data1).getD 0 default).close) /
          ((sortByDate data1).getD 0 default).close * 100))) := by
  unfold processChartData
  rw [if_neg (by omega), if_neg hB]
  simp [List.getLast?_concat, finalPoint]

def etfW5 : ETF := ⟨"VWCE", "Global", DistributionPolicy.Accumulating, 0⟩

def dataW5 : List PricePoint := [⟨0, 100⟩, ⟨1, 110⟩, ⟨2, 121⟩]

/-- C5 (witness): for `seriesA = [(d0,100), (d1,110), (d2,121)]` the last
chart point's series-A value is exactly `21.00`. -/
theorem c5_witness :
    (2 ≤ dataW5.length ∧ (none : Option (List PricePoint)) ≠ some ([] : List PricePoint)) ∧
    (processChartData etfW5 dataW5 none none true).map
        (fun out => out.getLast?.map ChartPoint.etf1Value) = some (some 21) := by
  refine ⟨⟨by simp [dataW5], by simp⟩, ?_⟩
  have h := c5_endpoint_exact etfW5 dataW5 none none true (by simp [dataW5]) (by simp)
  rw [h]
  norm_num [dataW5, sortByDate, List.insertionSort, List.orderedInsert, round2_def]

/-! ### C6 — the dividend-drag factor and its progress variable -/

/-- Indexing an interpolated sub-point: for `k < (N - 1) * 5` the `k`-th
output point is the loop body at segment `k / 5`, sub-step `k % 5`. -/
theorem processChartData_sub_etf1Value (etf1 : ETF) (data1 : List PricePoint)
    (etf2 : Option ETF) (data2 : Option (List PricePoint)) (inc : Bool) (k : ℕ)
    (h2 : 2 ≤ data1.length) (hB : data2 ≠ some ([] : List PricePoint))
    (hk : k < (data1.length - 1) * 5) :
    (processChartData etf1 data1 etf2 data2 inc).map
        (fun out => out[k]?.map ChartPoint.etf1Value) =
      some (some ((subPoint etf1 etf2 (sortByDate data1) (data2.map sortByDate) inc
        (k / 5) (k % 5)).etf1Value)) := by
  unfold processChartData
  rw [if_neg (by omega), if_neg hB]
  have hlen : k < (interpPoints etf1 etf2 (sortByDate data1) (data2.map sortByDate) inc).length := by
    rw [interpPoints_length, sortByDate_length]
    exact hk
  simp only [Option.map_some']
  congr 1
  rw [List.getElem?_append_left hlen, interpPoints_eq, List.getElem?_map]
  have hr : k < ((sortByDate data1).length - 1) * 5 := by
    rw [sortByDate_length]
    exact hk
  simp [List.getElem?_range, hr]

/-- The series-A value of a sub-point for a distributing fund with the
dividend simulation on: the linearly interpolated price is scaled by
`1 - yield * ((i * 5 + j) / (N * 5))` before conversion to a rounded
percentage return. -/
theorem subPoint_etf1Value_distributing (etf1 : ETF) (etf2 : Option ETF)
    (d1 : List PricePoint) (d2 : Option (List PricePoint)) (i j : ℕ)
    (hd : etf1.distribution = DistributionPolicy.Distributing) :
    (subPoint etf1 etf2 d1 d2 false i j).etf1Value =
      round2 ((lerp (d1.getD i default).close (d1.getD (i + 1) default).close ((j : ℚ) / 5) *
          (1 - etf1.dividendYield * (((i : ℚ) * 5 + (j : ℚ)) / ((d1.length : ℚ) * 5))) -
        (d1.getD 0 default).close) / (d1.getD 0 default).close * 100) := by
  simp [subPoint, hd]

/-- Indexing an interpolated sub-point's series-B value, in parallel with
`processChartData_sub_etf1Value`. -/
theorem processChartData_sub_etf2Value (etf1 : ETF) (data1 : List PricePoint)
    (etf2 : Option ETF) (data2 : Option (List PricePoint)) (inc : Bool) (k : ℕ)
    (h2 : 2 ≤ data1.length) (hB : data2 ≠ some ([] : List PricePoint))
    (hk : k < (data1.length - 1) * 5) :
    (processChartData etf1 data1 etf2 data2 inc).map
        (fun out => out[k]?.map ChartPoint.etf2Value) =
      some (some ((subPoint etf1 etf2 (sortByDate data1) (data2.map sortByDate) inc
        (k / 5) (k % 5)).etf2Value)) := by
  unfold processChartData
  rw [if_neg (by omega), if_neg hB]
  have hlen : k < (interpPoints etf1 etf2 (sortByDate data1) (data2.map sortByDate) inc).length := by
    rw [interpPoints_length, sortByDate_length]
    exact hk
  simp only [Option.map_some']
  congr 1
  rw [List.getElem?_append_left hlen, interpPoints_eq, List.getElem?_map]
  have hr : k < ((sortByDate data1).length - 1) * 5 := by
    rw [sortByDate_length]
    exact hk
  simp [List.getElem?_range, hr]

/-- The series-B value of a sub-point for a distributing series-B fund with
the dividend simulation on (`src/utils/metrics.ts` lines 61–64): the price
linearly interpolated between the index-matched points of series B (each
falling back to its last point) is scaled by the same
`1 - yield * ((i * 5 + j) / (N * 5))` factor, `N` being the length of
series A. -/
theorem subPoint_etf2Value_distributing (etf1 e2 : ETF) (d1 l : List PricePoint) (i j : ℕ)
    (hd : e2.distribution = DistributionPolicy.Distributing) :
    (subPoint etf1 (some e2) d1 (some l) false i j).etf2Value =
      some (round2 ((lerp ((l[i]?).getD (l.getLast?.getD default)).close
          ((l[i + 1]?).getD (l.getLast?.getD default)).close ((j : ℚ) / 5) *
          (1 - e2.dividendYield * (((i : ℚ) * 5 + (j : ℚ)) / ((d1.length : ℚ) * 5))) -
        (l.getD 0 default).close) / (l.getD 0 default).close * 100)) := by
  simp [subPoint, hd]

def etfC6x : ETF := ⟨"EQQQ", "Tech/Nasdaq", DistributionPolicy.Distributing, 1 / 2⟩

def dataC6x : List PricePoint := [⟨0, 100⟩, ⟨10, 100⟩]

/-- C6 (counterexample): with yield `0.5`, dividend simulation on, and the
flat series `[(0,100), (10,100)]`, the last interpolated sub-point
(index 4, the end of the run) reports `-20`, i.e. the factor applied there
is `1 - 0.5 * (4 / 10)`; had progress increased "from 0 to 1 across the
whole run" as the claim states, the factor at the run's end would be
`1 - 0.5 * 1` and the value `-50`. -/
theorem c6_counterexample :
    (processChartData etfC6x dataC6x none none false).map
        (fun out => out[4]?.map ChartPoint.etf1Value) = some (some (-20)) ∧
    some (some (-20 : ℚ)) ≠
      some (some (round2 ((100 * (1 - (1 / 2 : ℚ) * 1) - 100) / 100 * 100))) := by
  constructor
  · rw [processChartData_sub_etf1Value etfC6x dataC6x none none false 4 (by simp [dataC6x])
      (by simp) (by simp [dataC6x])]
    norm_num [subPoint, lerp, etfC6x, dataC6x, sortByDate, List.insertionSort,
      List.orderedInsert, round2_def]
  · norm_num [round2_def]

/-- C6 (theorem, amended): with dividend simulation on, sub-point `k`
(segment `i = k / 5`, sub-step `j = k % 5`) scales the interpolated price
of each series whose fund is distributing — series A's price and,
symmetrically, series B's price (source lines 56–60 and 61–64) — by
`1 - yield * progress` with `progress = k / (N * 5)`, `N` being the
number of series-A points in both branches; this progress starts at `0`
and increases strictly monotonically, but stays strictly below `1` for
every sub-point of the run (the denominator counts one segment more than
the `N - 1` segments that are actually generated). -/
theorem c6_drag_factor (etf1 : ETF) (data1 : List PricePoint) (etf2 : Option ETF)
    (data2 : Option (List PricePoint)) (k : ℕ)
    (h2 : 2 ≤ data1.length) (hB : data2 ≠ some ([] : List PricePoint))
    (hk : k < (data1.length - 1) * 5) :
    (etf1.distribution = DistributionPolicy.Distributing →
      (processChartData etf1 data1 etf2 data2 false).map
          (fun out => out[k]?.map ChartPoint.etf1Value) =
        some (some (round2
          ((lerp ((sortByDate data1).getD (k / 5) default).close
              ((sortByDate data1).getD (k / 5 + 1) default).close (((k % 5 : ℕ) : ℚ) / 5) *
              (1 - etf1.dividendYield * ((k : ℚ) / ((data1.length : ℚ) * 5))) -
            ((sortByDate data1).getD 0 default).close) /
            ((sortByDate data1).getD 0 default).close * 100)))) ∧
    (∀ e2 dataB, etf2 = some e2 → data2 = some dataB →
      e2.distribution = DistributionPolicy.Distributing →
      (processChartData etf1 data1 etf2 data2 false).map
          (fun out => out[k]?.map ChartPoint.etf2Value) =
        some (some (some (round2
          ((lerp (((sortByDate dataB)[k / 5]?).getD
                ((sortByDate dataB).getLast?.getD default)).close
              (((sortByDate dataB)[k / 5 + 1]?).getD
                ((sortByDate dataB).getLast?.getD default)).close (((k % 5 : ℕ) : ℚ) / 5) *
              (1 - e2.dividendYield * ((k : ℚ) / ((data1.length : ℚ) * 5))) -
            ((sortByDate dataB).getD 0 default).close) /
            ((sortByDate dataB).getD 0 default).close * 100))))) ∧
    (∀ k1 k2 : ℕ, k1 < k2 →
      (k1 : ℚ) / ((data1.length : ℚ) * 5) < (k2 : ℚ) / ((data1.length : ℚ) * 5)) ∧
    (0 : ℚ) / ((data1.length : ℚ) * 5) = 0 ∧
    (k : ℚ) / ((data1.length : ℚ) * 5) < 1 := by
  have hN : (0 : ℚ) < (data1.length : ℚ) := by
    exact_mod_cast (by omega : 0 < data1.length)
  have hNpos : (0 : ℚ) < (data1.length : ℚ) * 5 := by positivity
  have hcast : ((k / 5 : ℕ) : ℚ) * 5 + ((k % 5 : ℕ) : ℚ) = (k : ℚ) := by
    have h : (k / 5) * 5 + k % 5 = k := by omega
    calc ((k / 5 : ℕ) : ℚ) * 5 + ((k % 5 : ℕ) : ℚ)
        = (((k / 5) * 5 + k % 5 : ℕ) : ℚ) := by push_cast; ring
      _ = (k : ℚ) := by rw [h]
  refine ⟨?_, ?_, ?_, by simp, ?_⟩
  · intro hd
    rw [processChartData_sub_etf1Value etf1 data1 etf2 data2 false k h2 hB hk,
      subPoint_etf1Value_distributing etf1 etf2 _ _ _ _ hd, sortByDate_length, hcast]
  · intro e2 dataB he hdB hd2
    subst he
    subst hdB
    rw [processChartData_sub_etf2Value etf1 data1 (some e2) (some dataB) false k h2 hB hk]
    simp only [Option.map_some']
    rw [subPoint_etf2Value_distributing etf1 e2 _ _ _ _ hd2, sortByDate_length, hcast]
  · intro k1 k2 h
    gcongr
  · rw [div_lt_one hNpos]
    have hlt : k < data1.length * 5 := by omega
    exact_mod_cast hlt

def etfC6w : ETF := ⟨"VHYD", "High Dividend", DistributionPolicy.Distributing, 1 / 25⟩

def etfC6w2 : ETF := ⟨"VUSA", "USA S&P500", DistributionPolicy.Distributing, 7 / 500⟩

def dataC6w : List PricePoint := [⟨0, 100⟩, ⟨5, 110⟩, ⟨9, 121⟩]

def dataC6wB : List PricePoint := [⟨0, 50⟩, ⟨4, 55⟩]

theorem c6_witness :
    (2 ≤ dataC6w.length ∧
      (some dataC6wB : Option (List PricePoint)) ≠ some ([] : List PricePoint) ∧
      7 < (dataC6w.length - 1) * 5 ∧
      etfC6w.distribution = DistributionPolicy.Distributing ∧
      etfC6w2.distribution = DistributionPolicy.Distributing) ∧
    ((processChartData etfC6w dataC6w (some etfC6w2) (some dataC6wB) false).map
        (fun out => out[7]?.map ChartPoint.etf1Value) =
      some (some (round2
        ((lerp ((sortByDate dataC6w).getD (7 / 5) default).close
            ((sortByDate dataC6w).getD (7 / 5 + 1) default).close (((7 % 5 : ℕ) : ℚ) / 5) *
            (1 - etfC6w.dividendYield * ((7 : ℚ) / ((dataC6w.length : ℚ) * 5))) -
          ((sortByDate dataC6w).getD 0 default).close) /
          ((sortByDate dataC6w).getD 0 default).close * 100)))) ∧
    ((processChartData etfC6w dataC6w (some etfC6w2) (some dataC6wB) false).map
        (fun out => out[7]?.map ChartPoint.etf2Value) =
      some (some (some (round2
        ((lerp (((sortByDate dataC6wB)[7 / 5]?).getD
              ((sortByDate dataC6wB).getLast?.getD default)).close
            (((sortByDate dataC6wB)[7 / 5 + 1]?).getD
              ((sortByDate dataC6wB).getLast?.getD default)).close (((7 % 5 : ℕ) : ℚ) / 5) *
            (1 - etfC6w2.dividendYield * ((7 : ℚ) / ((dataC6w.length : ℚ) * 5))) -
          ((sortByDate dataC6wB).getD 0 default).close) /
          ((sortByDate dataC6wB).getD 0 default).close * 100))))) ∧
    (∀ k1 k2 : ℕ, k1 < k2 →
      (k1 : ℚ) / ((dataC6w.length : ℚ) * 5) < (k2 : ℚ) / ((dataC6w.length : ℚ) * 5)) ∧
    (0 : ℚ) / ((dataC6w.length : ℚ) * 5) = 0 ∧
    (7 : ℚ) / ((dataC6w.length : ℚ) * 5) < 1 := by
  have h := c6_drag_factor etfC6w dataC6w (some etfC6w2) (some dataC6wB) 7
    (by simp [dataC6w]) (by simp [dataC6wB]) (by simp [dataC6w])
  exact ⟨⟨by simp [dataC6w], by simp [dataC6wB], by simp [dataC6w], rfl, rfl⟩,
    h.1 rfl, h.2.1 etfC6w2 dataC6wB rfl rfl rfl, h.2.2.1, h.2.2.2.1, h.2.2.2.2⟩

/-! ### C9 — the interpolator reorders the caller's arrays -/

/-- C9: after a call with at least two points in series A, the caller's
series-A array has been reordered in place into ascending date order (a
sorted permutation of what was passed in), and likewise the series-B
array when present. -/
theorem c9_inputs_sorted (data1 : List PricePoint) (data2 : Option (List PricePoint))
    (h2 : 2 ≤ data1.length) :
    postSeriesA data1 = sortByDate data1 ∧
    (postSeriesA data1).Sorted (fun a b => a.date ≤ b.date) ∧
    (postSeriesA data1).Perm data1 ∧
    (∀ l, data2 = some l →
      postSeriesB data1 data2 = some (sortByDate l) ∧
      (sortByDate l).Sorted (fun a b => a.date ≤ b.date) ∧
      (sortByDate l).Perm l) := by
  have hA : postSeriesA data1 = sortByDate data1 := by
    unfold postSeriesA
    rw [if_neg (by omega)]
  refine ⟨hA, ?_, ?_, ?_⟩
  · rw [hA]
    exact List.sorted_insertionSort _ _
  · rw [hA]
    exact List.perm_insertionSort _ _
  · intro l hl
    subst hl
    refine ⟨?_, List.sorted_insertionSort _ _, List.perm_insertionSort _ _⟩
    unfold postSeriesB
    rw [if_neg (by omega)]
    rfl

def dataC9a : List PricePoint := [⟨2, 121⟩, ⟨0, 100⟩, ⟨1, 110⟩]

def dataC9b : List PricePoint := [⟨5, 2⟩, ⟨3, 1⟩]

theorem c9_witness :
    2 ≤ dataC9a.length ∧
    (postSeriesA dataC9a = sortByDate dataC9a ∧
    (postSeriesA dataC9a).Sorted (fun a b => a.date ≤ b.date) ∧
    (postSeriesA dataC9a).Perm dataC9a ∧
    (∀ l, some dataC9b = some l →
      postSeriesB dataC9a (some dataC9b) = some (sortByDate l) ∧
      (sortByDate l).Sorted (fun a b => a.date ≤ b.date) ∧
      (sortByDate l).Perm l)) :=
  ⟨by simp [dataC9a], c9_inputs_sorted dataC9a (some dataC9b) (by simp [dataC9a])⟩
